import Mathlib

/-!
Verification development for the manifest validation and index-aggregation
engine of the mods-registry repository (scripts/build_index.py).

The embedding models a parsed YAML manifest as a `Value` tree (the result of
yaml.safe_load), the per-manifest validator `validate_manifest`, the
placeholder-hash audit `check_placeholder_hashes`, the recursive
scientific-notation normalizer `_coerce_floats`, and the corpus aggregation
`build_index`.  File-system enumeration, YAML parsing and JSON writing are
boundary concerns: a corpus is given as the already-enumerated list of
directories with per-file parse outcomes, and `build_index` returning `none`
models the Python function returning False before the output file is written
(all-or-nothing publication), while `some idx` models a successful run that
writes exactly `idx`.
-/

/-- Euclidean algorithm with explicit fuel, so that it is structurally
recursive and evaluates inside the kernel.  The first argument strictly
decreases on every step, so fuel `m + 1` always suffices. -/
def gcdFuel : Nat → Nat → Nat → Nat
  | 0, _, n => n
  | _ + 1, 0, n => n
  | fuel + 1, m + 1, n => gcdFuel fuel (n % (m + 1)) (m + 1)

def natGcd (m n : Nat) : Nat := gcdFuel (m + 1) m n

/-- A Python float modelled as an exact rational in lowest terms.  The only
float values the engine ever creates come from parsing finite decimal
literals, which are exactly representable this way. -/
structure PyFloat where
  num : Int
  den : Nat
deriving DecidableEq

/-- Canonical rational `n / d` in lowest terms (`d` is a positive power of
ten at every use site). -/
def pfMake (n : Int) (d : Nat) : PyFloat :=
  let g := natGcd n.natAbs d
  if g = 0 then ⟨0, 1⟩ else ⟨n / g, d / g⟩

/-- A Python value as produced by yaml.safe_load and manipulated by
build_index.py: None, bool, int, float, str, list, dict (string keys, in
insertion order, keys unique). -/
inductive Value where
  | vnull  : Value
  | vbool  : Bool → Value
  | vint   : Int → Value
  | vfloat : PyFloat → Value
  | vstr   : String → Value
  | vlist  : List Value → Value
  | vdict  : List (String × Value) → Value

mutual

/-- Structural equality test for `Value` (used only to derive decidable
equality; `Value` is a nested inductive so deriving is done by hand). -/
def Value.beq : Value → Value → Bool
  | .vnull, .vnull => true
  | .vbool a, .vbool b => a == b
  | .vint a, .vint b => a == b
  | .vfloat a, .vfloat b => a == b
  | .vstr a, .vstr b => a == b
  | .vlist a, .vlist b => Value.beqList a b
  | .vdict a, .vdict b => Value.beqDict a b
  | _, _ => false

def Value.beqList : List Value → List Value → Bool
  | [], [] => true
  | a :: as, b :: bs => Value.beq a b && Value.beqList as bs
  | _, _ => false

def Value.beqDict : List (String × Value) → List (String × Value) → Bool
  | [], [] => true
  | (k, v) :: as, (k2, v2) :: bs => k == k2 && Value.beq v v2 && Value.beqDict as bs
  | _, _ => false

end

mutual

theorem Value.beq_iff : ∀ a b : Value, Value.beq a b = true ↔ a = b
  | .vnull, .vnull => by simp [Value.beq]
  | .vbool a, .vbool b => by simp [Value.beq]
  | .vint a, .vint b => by simp [Value.beq]
  | .vfloat a, .vfloat b => by simp [Value.beq]
  | .vstr a, .vstr b => by simp [Value.beq]
  | .vlist a, .vlist b => by
      simp only [Value.beq, Value.beqList_iff a b, Value.vlist.injEq]
  | .vdict a, .vdict b => by
      simp only [Value.beq, Value.beqDict_iff a b, Value.vdict.injEq]
  | .vnull, .vbool _ => by simp [Value.beq]
  | .vnull, .vint _ => by simp [Value.beq]
  | .vnull, .vfloat _ => by simp [Value.beq]
  | .vnull, .vstr _ => by simp [Value.beq]
  | .vnull, .vlist _ => by simp [Value.beq]
  | .vnull, .vdict _ => by simp [Value.beq]
  | .vbool _, .vnull => by simp [Value.beq]
  | .vbool _, .vint _ => by simp [Value.beq]
  | .vbool _, .vfloat _ => by simp [Value.beq]
  | .vbool _, .vstr _ => by simp [Value.beq]
  | .vbool _, .vlist _ => by simp [Value.beq]
  | .vbool _, .vdict _ => by simp [Value.beq]
  | .vint _, .vnull => by simp [Value.beq]
  | .vint _, .vbool _ => by simp [Value.beq]
  | .vint _, .vfloat _ => by simp [Value.beq]
  | .vint _, .vstr _ => by simp [Value.beq]
  | .vint _, .vlist _ => by simp [Value.beq]
  | .vint _, .vdict _ => by simp [Value.beq]
  | .vfloat _, .vnull => by simp [Value.beq]
  | .vfloat _, .vbool _ => by simp [Value.beq]
  | .vfloat _, .vint _ => by simp [Value.beq]
  | .vfloat _, .vstr _ => by simp [Value.beq]
  | .vfloat _, .vlist _ => by simp [Value.beq]
  | .vfloat _, .vdict _ => by simp [Value.beq]
  | .vstr _, .vnull => by simp [Value.beq]
  | .vstr _, .vbool _ => by simp [Value.beq]
  | .vstr _, .vint _ => by simp [Value.beq]
  | .vstr _, .vfloat _ => by simp [Value.beq]
  | .vstr _, .vlist _ => by simp [Value.beq]
  | .vstr _, .vdict _ => by simp [Value.beq]
  | .vlist _, .vnull => by simp [Value.beq]
  | .vlist _, .vbool _ => by simp [Value.beq]
  | .vlist _, .vint _ => by simp [Value.beq]
  | .vlist _, .vfloat _ => by simp [Value.beq]
  | .vlist _, .vstr _ => by simp [Value.beq]
  | .vlist _, .vdict _ => by simp [Value.beq]
  | .vdict _, .vnull => by simp [Value.beq]
  | .vdict _, .vbool _ => by simp [Value.beq]
  | .vdict _, .vint _ => by simp [Value.beq]
  | .vdict _, .vfloat _ => by simp [Value.beq]
  | .vdict _, .vstr _ => by simp [Value.beq]
  | .vdict _, .vlist _ => by simp [Value.beq]

theorem Value.beqList_iff : ∀ a b : List Value, Value.beqList a b = true ↔ a = b
  | [], [] => by simp [Value.beqList]
  | [], _ :: _ => by simp [Value.beqList]
  | _ :: _, [] => by simp [Value.beqList]
  | a :: as, b :: bs => by
      simp [Value.beqList, Value.beq_iff a b, Value.beqList_iff as bs]

theorem Value.beqDict_iff : ∀ a b : List (String × Value), Value.beqDict a b = true ↔ a = b
  | [], [] => by simp [Value.beqDict]
  | [], _ :: _ => by simp [Value.beqDict]
  | _ :: _, [] => by simp [Value.beqDict]
  | (k, v) :: as, (k2, v2) :: bs => by
      simp [Value.beqDict, Value.beq_iff v v2, Value.beqDict_iff as bs, and_assoc]

end

instance : DecidableEq Value := fun a b =>
  decidable_of_iff (Value.beq a b = true) (Value.beq_iff a b)

/-- A parsed manifest document: a Python dict with string keys. -/
abbrev Dict := List (String × Value)

/-- First binding of key `k` in dict `m` (dict keys are unique, so this is
the dict lookup). -/
def dget? (m : Dict) (k : String) : Option Value :=
  (m.find? (fun p => p.1 == k)).map (fun p => p.2)

/-- Python `k in manifest` for a dict. -/
def hasKey (m : Dict) (k : String) : Bool :=
  (dget? m k).isSome

/-- Python `manifest[k]` for a dict.  In the source every subscript is guarded
by a prior membership test, so the KeyError case is modelled as None. -/
def dIndex (m : Dict) (k : String) : Value :=
  (dget? m k).getD .vnull

/-- Python `manifest.get(k, d)` for a dict. -/
def dgetD (m : Dict) (k : String) (d : Value) : Value :=
  (dget? m k).getD d

/-- Bool test that the first character list is a leading run of the second. -/
def listIsPre : List Char → List Char → Bool
  | [], _ => true
  | _ :: _, [] => false
  | a :: as, b :: bs => a == b && listIsPre as bs

/-- Python `s.startswith(pre)`. -/
def strStarts (s pre : String) : Bool :=
  listIsPre pre.toList s.toList

/-- Python `needle in hay` for two strings: substring containment. -/
def strContainsSub (hay needle : String) : Bool :=
  decide (needle.toList <:+: hay.toList)

/-- Python `<` on two strings as character lists: lexicographic comparison by
code point. -/
def charListLt : List Char → List Char → Bool
  | [], [] => false
  | [], _ :: _ => true
  | _ :: _, [] => false
  | a :: as, b :: bs => if a = b then charListLt as bs else decide (a < b)

/-- Python `a < b` on strings. -/
def strLt (a b : String) : Bool :=
  charListLt a.toList b.toList

/-- Python `k in v` for a string key `k` and an arbitrary value `v`:
key membership for dicts, element equality for lists (a str never equals a
non-str), substring containment for strings.  Other values raise TypeError in
Python; those cases are modelled as False and are only reachable for
manifests the validator rejects anyway. -/
def pyContains (k : String) (v : Value) : Bool :=
  match v with
  | .vdict m => hasKey m k
  | .vlist xs => xs.any (fun x => decide (x = .vstr k))
  | .vstr s => strContainsSub s k
  | _ => false

/-- Python `v[k]` for an arbitrary value `v`: dict lookup; every use in the
source is guarded by a membership test, and the TypeError cases (string or
list subscripted with a string key) are modelled as None. -/
def pyIndex (v : Value) (k : String) : Value :=
  match v with
  | .vdict m => dIndex m k
  | _ => .vnull

/-- Python `v.get(k, d)`: defined on dicts; on any other value Python raises
AttributeError, modelled as the default (unreachable after validation). -/
def pyGetD (v : Value) (k : String) (d : Value) : Value :=
  match v with
  | .vdict m => dgetD m k d
  | _ => d

/-- Python `len(v)` for str, list and dict.  Other values raise TypeError;
those are modelled as 0, which makes the guard using them reject the
manifest where Python would crash the run (either way no index appears). -/
def pyLen (v : Value) : Nat :=
  match v with
  | .vstr s => s.length
  | .vlist xs => xs.length
  | .vdict m => m.length
  | _ => 0

/-- Python truthiness. -/
def pyTruthy (v : Value) : Bool :=
  match v with
  | .vnull => false
  | .vbool b => b
  | .vint n => n != 0
  | .vfloat q => q.num != 0
  | .vstr s => s != ""
  | .vlist xs => !xs.isEmpty
  | .vdict m => !m.isEmpty

/-- Python `v == s` for a string literal `s`: a non-str value never equals a
str. -/
def valueEqStr (v : Value) (s : String) : Bool :=
  match v with
  | .vstr t => t == s
  | _ => false

/-- Python `isinstance(v, int)`.  bool is a subclass of int in Python, so a
bool passes this test. -/
def isinstance_int (v : Value) : Bool :=
  match v with
  | .vint _ => true
  | .vbool _ => true
  | _ => false

/-- Python `for x in v`: list elements, string characters, dict keys.
Non-iterable values raise TypeError in Python; modelled as the empty
iteration (only reachable for manifests that are rejected either way). -/
def pyIter (v : Value) : List Value :=
  match v with
  | .vlist xs => xs
  | .vstr s => s.toList.map (fun c => .vstr (String.singleton c))
  | .vdict m => m.map (fun p => .vstr p.1)
  | _ => []

/-- Interpolation of a value into an f-string.  Reachable interpolations in
the source only ever format str and int values; the float, list and dict
representations here are stand-ins (no claim inspects such a message). -/
def pyStr (v : Value) : String :=
  match v with
  | .vstr s => s
  | .vint n => toString n
  | .vbool b => if b then "True" else "False"
  | .vnull => "None"
  | .vfloat q => toString q.num ++ "/" ++ toString q.den
  | .vlist _ => "<list>"
  | .vdict _ => "<dict>"

/-- VALID_TYPES from build_index.py (a set; listed here in source order). -/
def VALID_TYPES : List String :=
  ["checkpoint", "diffusion_model", "lora", "vae", "text_encoder", "controlnet",
   "upscaler", "embedding", "ipadapter", "segmentation", "recipe"]

/-- TYPE_DIR_MAP from build_index.py: directory name to expected type. -/
def TYPE_DIR_MAP : List (String × String) :=
  [("checkpoints", "checkpoint"), ("diffusion_models", "diffusion_model"),
   ("loras", "lora"), ("vae", "vae"), ("text_encoders", "text_encoder"),
   ("controlnet", "controlnet"), ("upscalers", "upscaler"),
   ("embeddings", "embedding"), ("ipadapters", "ipadapter"),
   ("segmentation", "segmentation"), ("recipes", "recipe")]

/-- VALID_CATEGORIES from build_index.py. -/
def VALID_CATEGORIES : List String :=
  ["general", "style", "character", "concept", "product", "technique",
   "acceleration", "editing", "upscaling", "segmentation", "controlnet"]

/-- Stand-in for the Python repr of the VALID_TYPES set interpolated into the
invalid-type message (set iteration order is hash-dependent; no claim
inspects this text). -/
def validTypesText : String := "<VALID_TYPES>"

/-- Stand-in for the Python repr of the VALID_CATEGORIES set interpolated
into the invalid-category message. -/
def validCategoriesText : String := "<VALID_CATEGORIES>"

/-- The required-fields loop of validate_manifest (lines 75 to 77): one
missing-field error per absent field among id, name, type, in that order. -/
def requiredFieldErrors (m : Dict) : List String :=
  (["id", "name", "type"].filter (fun f => !hasKey m f)).map
    (fun f => "Missing required field: " ++ f)

/-- The id-matches-filename check (lines 81 to 84). -/
def idError (m : Dict) (filename_id : String) : List String :=
  if valueEqStr (dIndex m "id") filename_id then []
  else ["ID \x27" ++ pyStr (dIndex m "id") ++ "\x27 does not match filename \x27"
          ++ filename_id ++ "\x27"]

/-- Python `manifest["type"] in VALID_TYPES` where VALID_TYPES is a set of
strings; a non-str hashable value is not a member. -/
def inValidTypes (v : Value) : Bool :=
  match v with
  | .vstr t => VALID_TYPES.contains t
  | _ => false

/-- The type-enum check (lines 87 to 90). -/
def typeError (m : Dict) : List String :=
  if inValidTypes (dIndex m "type") then []
  else ["Invalid type \x27" ++ pyStr (dIndex m "type") ++ "\x27. Must be one of: "
          ++ validTypesText]

def inValidCategories (v : Value) : Bool :=
  match v with
  | .vstr t => VALID_CATEGORIES.contains t
  | _ => false

/-- The optional category check (lines 93 to 96). -/
def categoryError (m : Dict) : List String :=
  if hasKey m "category" && !inValidCategories (dIndex m "category") then
    ["Invalid category \x27" ++ pyStr (dIndex m "category") ++ "\x27. Must be one of: "
       ++ validCategoriesText]
  else []

/-- Line 99: `is_recipe = manifest["type"] == "recipe"`. -/
def isRecipeB (m : Dict) : Bool :=
  valueEqStr (dIndex m "type") "recipe"

/-- Line 102: `"variants" in manifest and len(manifest.get("variants", [])) > 0`. -/
def hasVariantsB (m : Dict) : Bool :=
  hasKey m "variants" && decide (0 < pyLen (dgetD m "variants" (.vlist [])))

/-- Line 103: `"file" in manifest and manifest["file"] is not None`. -/
def hasFileB (m : Dict) : Bool :=
  hasKey m "file" && decide (dIndex m "file" ≠ .vnull)

/-- The recipe / content-shape branch (lines 105 to 112). -/
def shapeErrors (m : Dict) : List String :=
  if isRecipeB m then
    if !hasKey m "recipe" then ["Recipe type must have a \x27recipe\x27 config section"]
    else if !pyContains "base_model" (dgetD m "recipe" (.vdict [])) then
      ["Recipe \x27recipe\x27 section must have \x27base_model\x27"]
    else []
  else
    if !hasVariantsB m && !hasFileB m then
      ["Must have either \x27variants\x27 (non-empty) or \x27file\x27"]
    else []

def variantFields : List String := ["id", "file", "url", "sha256", "size"]

/-- The body of the per-variant loop (lines 116 to 121) for variant `i`. -/
def oneVariantErrors (i : Nat) (v : Value) : List String :=
  (variantFields.filter (fun fld => !pyContains fld v)).map
    (fun fld => "Variant " ++ toString i ++ " missing required field: " ++ fld)
  ++ (if pyContains "size" v && !isinstance_int (pyIndex v "size") then
        ["Variant " ++ toString i ++ " \x27size\x27 must be an integer (bytes)"]
      else [])

/-- The variants validation block (lines 115 to 121). -/
def variantErrors (m : Dict) : List String :=
  if hasVariantsB m then
    ((pyIter (dIndex m "variants")).enum.map (fun p => oneVariantErrors p.1 p.2)).flatten
  else []

/-- The file validation block (lines 124 to 130). -/
def fileErrors (m : Dict) : List String :=
  if hasFileB m then
    (["url", "sha256", "size"].filter (fun fld => !pyContains fld (dIndex m "file"))).map
      (fun fld => "File missing required field: " ++ fld)
    ++ (if pyContains "size" (dIndex m "file")
           && !isinstance_int (pyIndex (dIndex m "file") "size") then
          ["File \x27size\x27 must be an integer (bytes)"]
        else [])
  else []

/-- validate_manifest from build_index.py (lines 69 to 136): the
required-field errors if any field among id, name, type is absent, otherwise
the deeper structural errors collected in source order (id-filename match,
type enum, category enum, recipe or content shape, variants, file). -/
def validate_manifest (m : Dict) (filename_id : String) : List String :=
  let req := requiredFieldErrors m
  if req.isEmpty then
    idError m filename_id ++ typeError m ++ categoryError m ++ shapeErrors m
      ++ variantErrors m ++ fileErrors m
  else req

/-- Python `v.get("sha256", "").startswith("VERIFY_")` for a variant or file
record.  A non-str sha256 value would raise AttributeError in Python;
modelled as False (the validator never checks the sha256 type, but no claim
exercises a non-str sha256). -/
def sha256Placeholder (v : Value) : Bool :=
  match pyGetD v "sha256" (.vstr "") with
  | .vstr s => strStarts s "VERIFY_"
  | _ => false

/-- The warning emitted for one placeholder variant (lines 146 to 148). -/
def variantWarning (v : Value) : String :=
  "Variant \x27" ++ pyStr (pyGetD v "id" (.vstr "?")) ++ "\x27 has placeholder hash: "
    ++ pyStr (pyIndex v "sha256")

/-- check_placeholder_hashes from build_index.py (lines 139 to 156): one
warning per variant whose sha256 starts with "VERIFY_", then one warning for
a truthy file record whose sha256 starts with "VERIFY_". -/
def check_placeholder_hashes (m : Dict) : List String :=
  (if hasKey m "variants" then
     (pyIter (dIndex m "variants")).filterMap
       (fun v => if sha256Placeholder v then some (variantWarning v) else none)
   else [])
  ++ (if hasKey m "file" && pyTruthy (dIndex m "file") then
        if sha256Placeholder (dIndex m "file") then
          ["File has placeholder hash: " ++ pyStr (pyIndex (dIndex m "file") "sha256")]
        else []
      else [])

/-- Leading decimal digits of a character list, and the remainder. -/
def takeDigits : List Char → List Char × List Char
  | [] => ([], [])
  | c :: cs =>
    if c.isDigit then
      let p := takeDigits cs
      (c :: p.1, p.2)
    else ([], c :: cs)

/-- Numeric value of a list of decimal digits. -/
def digitsVal (ds : List Char) : Nat :=
  ds.foldl (fun a c => a * 10 + (c.toNat - 48)) 0

/-- An optional leading sign. -/
def takeSign : List Char → Int × List Char
  | '+' :: cs => (1, cs)
  | '-' :: cs => (-1, cs)
  | cs => (1, cs)

/-- The exact rational value of a decimal literal with sign `sgn`, integral
digits `ip`, fractional digits `fp` and exponent `e`:
`sgn * (ipfp) / 10 ^ len(fp) * 10 ^ e`, in lowest terms. -/
def pfOfParts (sgn : Int) (ip fp : List Char) (e : Int) : PyFloat :=
  let mantNum : Nat := digitsVal ip * 10 ^ fp.length + digitsVal fp
  let upTen : Nat := if 0 ≤ e then e.toNat else 0
  let downTen : Nat := fp.length + (if 0 ≤ e then 0 else (-e).toNat)
  pfMake (sgn * ((mantNum * 10 ^ upTen : Nat) : Int)) (10 ^ downTen)

/-- The exponent tail of a float literal: optional sign then at least one
digit, consuming the whole remainder. -/
def expTail (sgn : Int) (ip fp : List Char) (r : List Char) : Option PyFloat :=
  let sp := takeSign r
  let dp := takeDigits sp.2
  if dp.1.isEmpty || !dp.2.isEmpty then none
  else some (pfOfParts sgn ip fp (sp.1 * (digitsVal dp.1 : Int)))

/-- Models CPython float() applied to a string, restricted to finite decimal
literals: optional sign, digits with an optional fraction part (at least one
digit overall), and an optional exponent.  Whitespace trimming, digit-group
underscores and the inf and nan spellings are not modelled (the engine only
ever meets them inside strings that fail this parse anyway, where both the
model and Python leave the string unchanged).  The result is the exact
rational value of the literal. -/
def pyFloat? (s : String) : Option PyFloat :=
  let cs := s.toList
  let sp := takeSign cs
  let ip := takeDigits sp.2
  let fp : List Char × List Char :=
    match ip.2 with
    | '.' :: r => takeDigits r
    | r => ([], r)
  if ip.1.isEmpty && fp.1.isEmpty then none
  else
    match fp.2 with
    | [] => some (pfOfParts sp.1 ip.1 fp.1 0)
    | 'e' :: r => expTail sp.1 ip.1 fp.1 r
    | 'E' :: r => expTail sp.1 ip.1 fp.1 r
    | _ => none

/-- Python `"e" in v.lower()`: the only characters whose lowercase form is
the letter e are e and E themselves. -/
def hasLetterE (s : String) : Bool :=
  s.toList.any (fun c => c == 'e' || c == 'E')

/-- The per-string step of _coerce_floats (lines 165 to 170 and 174 to 180):
a string containing the letter e (case-insensitive) and not starting with
"0x" is attempted as a float; on success it is replaced by the parsed number,
on failure (ValueError, caught) it is left unchanged. -/
def coerceStr (s : String) : Value :=
  if hasLetterE s && !strStarts s "0x" then
    match pyFloat? s with
    | some q => .vfloat q
    | none => .vstr s
  else .vstr s

mutual

/-- _coerce_floats from build_index.py (lines 159 to 182): recursively walk
dicts and lists; string children are attempted as scientific-notation floats,
non-string children are walked recursively; a value that is itself neither a
dict nor a list is left untouched. -/
def coerceFloats : Value → Value
  | .vdict kvs => .vdict (coerceDict kvs)
  | .vlist xs => .vlist (coerceList xs)
  | v => v

/-- The dict branch of _coerce_floats: each string value is handed to the
float coercion, each non-string value is recursed into. -/
def coerceDict : List (String × Value) → List (String × Value)
  | [] => []
  | (k, .vstr s) :: rest => (k, coerceStr s) :: coerceDict rest
  | (k, v) :: rest => (k, coerceFloats v) :: coerceDict rest

/-- The list branch of _coerce_floats. -/
def coerceList : List Value → List Value
  | [] => []
  | .vstr s :: rest => coerceStr s :: coerceList rest
  | v :: rest => coerceFloats v :: coerceList rest

end

/-- Outcome of yaml.safe_load on one manifest file: a YAML parse error, an
empty document (safe_load returned None), or a mapping document.  Manifest
documents are mappings (section 3 of the spec). -/
inductive ParseResult where
  | perr : ParseResult
  | pempty : ParseResult
  | pdoc : Dict → ParseResult
deriving DecidableEq

/-- One manifest file: its filename stem and its parse outcome. -/
structure MFile where
  stem : String
  parsed : ParseResult
deriving DecidableEq

/-- One top-level directory of the manifests corpus. -/
structure MDir where
  dname : String
  files : List MFile
deriving DecidableEq

/-- Outcome of the per-document part of the aggregation loop: a fatal
diagnostic, or acceptance carrying the manifest and whether placeholder
warnings were printed. -/
inductive FileOutcome where
  | fatal : FileOutcome
  | accept : Dict → Bool → FileOutcome
deriving DecidableEq

/-- The per-file body of the aggregation loop (lines 210 to 253): parse
failure, empty document, validation errors and a type-directory mismatch are
fatal; then placeholder hashes are audited, and in strict mode any audit
warning is fatal; otherwise the manifest is accepted. -/
def processFile (strict : Bool) (expected : String) (f : MFile) : FileOutcome :=
  match f.parsed with
  | .perr => .fatal
  | .pempty => .fatal
  | .pdoc m =>
    if !(validate_manifest m f.stem).isEmpty then .fatal
    else if !valueEqStr (dIndex m "type") expected then .fatal
    else
      let ws := check_placeholder_hashes m
      if strict && !ws.isEmpty then .fatal
      else .accept m (!ws.isEmpty)

/-- The run-scoped mutable state of build_index: the accumulated items and
the errors_found / warnings_found flags. -/
structure BuildAcc where
  items : List Dict
  errorsFound : Bool
  warningsFound : Bool
deriving DecidableEq

/-- Folding one file outcome into the run state. -/
def fileStep (strict : Bool) (expected : String) (a : BuildAcc) (f : MFile) : BuildAcc :=
  match processFile strict expected f with
  | .fatal => { a with errorsFound := true }
  | .accept m w => { a with items := a.items ++ [m], warningsFound := a.warningsFound || w }

/-- TYPE_DIR_MAP lookup for a directory (lines 201 and 205); none means the
directory is skipped with a non-fatal warning. -/
def dirExpected (d : MDir) : Option String :=
  (TYPE_DIR_MAP.find? (fun p => p.1 == d.dname)).map (fun p => p.2)

/-- Processing one directory of the corpus (lines 196 to 253). -/
def processDir (strict : Bool) (a : BuildAcc) (d : MDir) : BuildAcc :=
  match dirExpected d with
  | none => a
  | some expected => d.files.foldl (fileStep strict expected) a

/-- The whole enumeration loop of build_index, producing the final run state.
The corpus list is the directory enumeration (the source walks it in sorted
order; enumeration order only affects log order, since the items are
re-sorted by id afterwards). -/
def runAcc (strict : Bool) (corpus : List MDir) : BuildAcc :=
  corpus.foldl (processDir strict) ⟨[], false, false⟩

/-- The sort key of line 260: `items.sort(key=lambda x: x["id"])`.  Every
accepted manifest has a str id (it compared equal to the str filename stem),
so the key is its id string; the default is never reached on accepted items. -/
def idKey (m : Dict) : String :=
  match dget? m "id" with
  | some (.vstr s) => s
  | _ => ""

/-- Stable insertion of `m` into a list already sorted by `idKey`: `m` goes
after every element whose key is less than or equal to its own. -/
def insertById (m : Dict) : List Dict → List Dict
  | [] => [m]
  | x :: xs => if strLt (idKey m) (idKey x) then m :: x :: xs else x :: insertById m xs

/-- The sort of line 260.  Python list.sort is a stable sort by the key; a
stable sort by a total key is unique, so this left-fold stable insertion sort
computes the same list. -/
def sortById (l : List Dict) : List Dict :=
  l.foldl (fun acc m => insertById m acc) []

/-- Python `type_counts[t] = type_counts.get(t, 0) + 1` on a dict kept as an
insertion-ordered association list: bump the existing binding in place or
append a new one. -/
def bump (t : Value) : List (Value × Nat) → List (Value × Nat)
  | [] => [(t, 1)]
  | (k, n) :: rest => if k = t then (k, n + 1) :: rest else (k, n) :: bump t rest

/-- Line 269: `item.get("type", "unknown")`. -/
def itemType (m : Dict) : Value :=
  dgetD m "type" (.vstr "unknown")

/-- Line 271: truthiness of `item.get("cloud_available")`. -/
def cloudTruthy (m : Dict) : Bool :=
  pyTruthy (dgetD m "cloud_available" .vnull)

/-- The body of the counting loop (lines 268 to 272). -/
def statStep (p : List (Value × Nat) × Nat) (m : Dict) : List (Value × Nat) × Nat :=
  (bump (itemType m) p.1, if cloudTruthy m then p.2 + 1 else p.2)

/-- The counting loop of build_index (lines 266 to 272): type_counts and
cloud_count over the final item list. -/
def countStats (items : List Dict) : List (Value × Nat) × Nat :=
  items.foldl statStep ([], 0)

/-- The emitted index document (lines 275 to 283). -/
structure Index where
  version : Nat
  generated_at : String
  total_count : Nat
  type_counts : List (Value × Nat)
  cloud_available_count : Nat
  schema_url : String
  items : List Dict
deriving DecidableEq

def SCHEMA_URL : String := "https://registry.mods.sh/schemas/manifest.schema.json"

/-- build_index from build_index.py (lines 185 to 294).  `none` models the
run failing (returning False with no output written, the all-or-nothing
policy of lines 255 to 257); `some idx` models a successful run that writes
exactly `idx`.  `now` stands for the formatted current UTC instant.  On
success the accepted items are sorted by id (line 260), then the float
coercion walks the item list (line 263, each element being a mapping), then
the counts are taken over the resulting list. -/
def build_index (strict : Bool) (corpus : List MDir) (now : String) : Option Index :=
  let acc := runAcc strict corpus
  if acc.errorsFound then none
  else
    let itemsSorted := sortById acc.items
    let items := itemsSorted.map (fun m => coerceDict m)
    let stats := countStats items
    some { version := 2, generated_at := now, total_count := items.length,
           type_counts := stats.1, cloud_available_count := stats.2,
           schema_url := SCHEMA_URL, items := items }

/-! Order facts about the Python string comparison used by the id sort. -/

theorem charListLt_irrefl : ∀ l : List Char, charListLt l l = false
  | [] => rfl
  | a :: as => by simp [charListLt, charListLt_irrefl as]

theorem charListLt_trans : ∀ (a b c : List Char),
    charListLt a b = true → charListLt b c = true → charListLt a c = true
  | [], [], _, h1, _ => by simp [charListLt] at h1
  | [], _ :: _, [], _, h2 => by simp [charListLt] at h2
  | [], _ :: _, _ :: _, _, _ => by simp [charListLt]
  | _ :: _, [], _, h1, _ => by simp [charListLt] at h1
  | _ :: _, _ :: _, [], _, h2 => by simp [charListLt] at h2
  | a :: as, b :: bs, c :: cs, h1, h2 => by
      simp only [charListLt] at h1 h2 ⊢
      by_cases hab : a = b
      · subst hab
        rw [if_pos rfl] at h1
        by_cases hac : a = c
        · subst hac
          rw [if_pos rfl] at h2 ⊢
          exact charListLt_trans as bs cs h1 h2
        · rw [if_neg hac] at h2 ⊢
          exact h2
      · rw [if_neg hab] at h1
        by_cases hbc : b = c
        · subst hbc
          rw [if_neg hab]
          exact h1
        · rw [if_neg hbc] at h2
          have hlt : a < c := lt_trans (of_decide_eq_true h1) (of_decide_eq_true h2)
          rw [if_neg (ne_of_lt hlt)]
          exact decide_eq_true hlt

theorem strLt_irrefl (s : String) : strLt s s = false :=
  charListLt_irrefl s.toList

theorem strLt_trans {a b c : String} (h1 : strLt a b = true) (h2 : strLt b c = true) :
    strLt a c = true :=
  charListLt_trans a.toList b.toList c.toList h1 h2

theorem strLt_asymm {a b : String} (h : strLt a b = true) : strLt b a = false := by
  cases hba : strLt b a with
  | false => rfl
  | true =>
    have h2 := strLt_trans h hba
    rw [strLt_irrefl a] at h2
    cases h2

/-- Sortedness in the sense of line 260: along the list, no later id string
compares strictly below an earlier one (non-decreasing by the Python string
order on the sort key). -/
def IdSortedLe (l : List Dict) : Prop :=
  l.Pairwise (fun a b => strLt (idKey b) (idKey a) = false)

theorem mem_insertById {y m : Dict} : ∀ {l : List Dict}, y ∈ insertById m l → y = m ∨ y ∈ l
  | [], h => by
      simp only [insertById, List.mem_singleton] at h
      exact Or.inl h
  | x :: xs, h => by
      unfold insertById at h
      split at h
      · simp only [List.mem_cons] at h ⊢
        tauto
      · simp only [List.mem_cons] at h ⊢
        rcases h with h | h
        · tauto
        · rcases mem_insertById h with h | h <;> tauto

theorem pairwise_insertById (m : Dict) :
    ∀ {l : List Dict}, IdSortedLe l → IdSortedLe (insertById m l)
  | [], _ => by
      simp [IdSortedLe, insertById]
  | x :: xs, h => by
      rcases List.pairwise_cons.mp h with ⟨hx, hxs⟩
      unfold insertById
      split
      · rename_i hlt
        refine List.pairwise_cons.mpr ⟨?_, h⟩
        intro y hy
        simp only [List.mem_cons] at hy
        rcases hy with rfl | hy
        · exact strLt_asymm hlt
        · cases hyk : strLt (idKey y) (idKey m) with
          | false => rfl
          | true =>
            have := strLt_trans hyk hlt
            rw [hx y hy] at this
            cases this
      · rename_i hnlt
        refine List.pairwise_cons.mpr ⟨?_, pairwise_insertById m hxs⟩
        intro y hy
        rcases mem_insertById hy with rfl | hy
        · exact Bool.eq_false_iff.mpr (fun hc => hnlt hc)
        · exact hx y hy

theorem idSorted_foldl : ∀ (l : List Dict) (acc : List Dict), IdSortedLe acc →
    IdSortedLe (l.foldl (fun acc m => insertById m acc) acc)
  | [], _, h => h
  | x :: xs, acc, h => idSorted_foldl xs _ (pairwise_insertById x h)

/-- The item sort of line 260 produces a list that is non-decreasing by the
id sort key. -/
theorem sortById_sorted (l : List Dict) : IdSortedLe (sortById l) :=
  idSorted_foldl l [] (by simp [IdSortedLe])

/-! Facts about the run state fold of build_index. -/

theorem fileStep_errors_mono (strict : Bool) (expected : String) (a : BuildAcc) (f : MFile)
    (h : a.errorsFound = true) : (fileStep strict expected a f).errorsFound = true := by
  unfold fileStep
  split <;> simp [h]

theorem foldl_fileStep_errors_mono (strict : Bool) (expected : String) :
    ∀ (fs : List MFile) (a : BuildAcc), a.errorsFound = true →
      (fs.foldl (fileStep strict expected) a).errorsFound = true
  | [], _, h => h
  | f :: fs, a, h =>
    foldl_fileStep_errors_mono strict expected fs _ (fileStep_errors_mono strict expected a f h)

theorem foldl_fileStep_fatal (strict : Bool) (expected : String) :
    ∀ (fs : List MFile) (a : BuildAcc) (f : MFile), f ∈ fs →
      processFile strict expected f = .fatal →
      (fs.foldl (fileStep strict expected) a).errorsFound = true
  | [], _, _, hmem, _ => by cases hmem
  | g :: fs, a, f, hmem, hfatal => by
      rcases List.mem_cons.mp hmem with rfl | hmem
      · exact foldl_fileStep_errors_mono strict expected fs _ (by simp [fileStep, hfatal])
      · exact foldl_fileStep_fatal strict expected fs _ f hmem hfatal

theorem processDir_errors_mono (strict : Bool) (a : BuildAcc) (d : MDir)
    (h : a.errorsFound = true) : (processDir strict a d).errorsFound = true := by
  unfold processDir
  split
  · exact h
  · exact foldl_fileStep_errors_mono strict _ d.files a h

theorem foldl_processDir_errors_mono (strict : Bool) :
    ∀ (ds : List MDir) (a : BuildAcc), a.errorsFound = true →
      (ds.foldl (processDir strict) a).errorsFound = true
  | [], _, h => h
  | d :: ds, a, h =>
    foldl_processDir_errors_mono strict ds _ (processDir_errors_mono strict a d h)

theorem foldl_processDir_fatal (strict : Bool) :
    ∀ (ds : List MDir) (a : BuildAcc) (d : MDir), d ∈ ds →
      ∀ (e : String), dirExpected d = some e →
      ∀ (f : MFile), f ∈ d.files → processFile strict e f = .fatal →
      (ds.foldl (processDir strict) a).errorsFound = true
  | [], _, _, hmem, _, _, _, _, _ => by cases hmem
  | g :: ds, a, d, hmem, e, he, f, hf, hfatal => by
      rcases List.mem_cons.mp hmem with rfl | hmem
      · refine foldl_processDir_errors_mono strict ds _ ?_
        unfold processDir
        rw [he]
        exact foldl_fileStep_fatal strict e d.files a f hf hfatal
      · exact foldl_processDir_fatal strict ds _ d hmem e he f hf hfatal

/-- Unfolding a successful run: the errors flag is clear and every emitted
field is as line 275 to 283 construct it from the sorted, normalized item
list. -/
theorem build_index_some_elim {strict : Bool} {corpus : List MDir} {now : String} {idx : Index}
    (h : build_index strict corpus now = some idx) :
    (runAcc strict corpus).errorsFound = false ∧
    idx.items = (sortById (runAcc strict corpus).items).map (fun m => coerceDict m) ∧
    idx.total_count = idx.items.length ∧
    idx.type_counts = (countStats idx.items).1 ∧
    idx.cloud_available_count = (countStats idx.items).2 ∧
    idx.version = 2 ∧ idx.generated_at = now ∧ idx.schema_url = SCHEMA_URL := by
  simp only [build_index] at h
  cases he : (runAcc strict corpus).errorsFound with
  | true => rw [he] at h; simp at h
  | false =>
    rw [he] at h
    simp only [Bool.false_eq_true, if_false, Option.some.injEq] at h
    subst h
    simp

/-! Facts about the type and cloud counting loop. -/

/-- Sum of the counter values of a type_counts association list. -/
def sumVals (tc : List (Value × Nat)) : Nat :=
  (tc.map (fun p => p.2)).sum

/-- The count bound to key `t`, 0 when absent. -/
def getCnt (tc : List (Value × Nat)) (t : Value) : Nat :=
  match tc.find? (fun p => decide (p.1 = t)) with
  | some p => p.2
  | none => 0

theorem sumVals_bump (t : Value) : ∀ tc, sumVals (bump t tc) = sumVals tc + 1
  | [] => by simp [bump, sumVals]
  | (k, n) :: rest => by
      unfold bump
      split
      · simp only [sumVals, List.map_cons, List.sum_cons]
        omega
      · have ih := sumVals_bump t rest
        simp only [sumVals, List.map_cons, List.sum_cons] at ih ⊢
        omega

theorem getCnt_cons_pos (t : Value) (n : Nat) (rest : List (Value × Nat)) :
    getCnt ((t, n) :: rest) t = n := by
  simp [getCnt, List.find?]

theorem getCnt_cons_neg {k u : Value} (hk : ¬ k = u) (n : Nat) (rest : List (Value × Nat)) :
    getCnt ((k, n) :: rest) u = getCnt rest u := by
  simp [getCnt, List.find?, hk]

theorem getCnt_bump (t u : Value) : ∀ tc, getCnt (bump t tc) u = getCnt tc u + (if u = t then 1 else 0)
  | [] => by
      by_cases h : u = t
      · subst h
        simp [bump, getCnt, List.find?]
      · have h2 : ¬ t = u := fun he => h he.symm
        simp [bump, getCnt, List.find?, h2, h]
  | (k, n) :: rest => by
      unfold bump
      by_cases hkt : k = t
      · rw [if_pos hkt]
        by_cases hku : k = u
        · have hut : u = t := hku ▸ hkt
          subst hku
          rw [getCnt_cons_pos, getCnt_cons_pos, if_pos hut]
        · have hut : ¬ u = t := fun he => hku (hkt.trans he.symm)
          rw [getCnt_cons_neg hku, getCnt_cons_neg hku, if_neg hut]
          omega
      · rw [if_neg hkt]
        by_cases hku : k = u
        · have hut : ¬ u = t := fun he => hkt (hku.trans he)
          subst hku
          rw [getCnt_cons_pos, getCnt_cons_pos, if_neg hut]
          omega
        · rw [getCnt_cons_neg hku, getCnt_cons_neg hku]
          exact getCnt_bump t u rest

theorem getCnt_mem : ∀ {tc : List (Value × Nat)} {t : Value}, 0 < getCnt tc t →
    (t, getCnt tc t) ∈ tc
  | [], t, h => by simp [getCnt] at h
  | (k, n) :: rest, t, h => by
      by_cases hk : k = t
      · subst hk
        rw [getCnt_cons_pos] at h ⊢
        exact List.mem_cons_self _ _
      · rw [getCnt_cons_neg hk] at h ⊢
        exact List.mem_cons_of_mem _ (getCnt_mem h)

theorem countStats_foldl_snd : ∀ (l : List Dict) (tc : List (Value × Nat)) (n : Nat),
    (l.foldl statStep (tc, n)).2 = n + l.countP cloudTruthy
  | [], _, _ => by simp
  | m :: l, tc, n => by
      simp only [List.foldl_cons, statStep, List.countP_cons]
      cases h : cloudTruthy m with
      | false =>
          rw [if_neg Bool.false_ne_true, if_neg Bool.false_ne_true,
            countStats_foldl_snd l]
          omega
      | true =>
          rw [if_pos rfl, if_pos rfl, countStats_foldl_snd l]
          omega

theorem countStats_foldl_sum : ∀ (l : List Dict) (tc : List (Value × Nat)) (n : Nat),
    sumVals (l.foldl statStep (tc, n)).1 = sumVals tc + l.length
  | [], _, _ => by simp
  | m :: l, tc, n => by
      simp only [List.foldl_cons, statStep, List.length_cons]
      rw [countStats_foldl_sum l, sumVals_bump]
      omega

theorem countStats_foldl_getCnt (t : Value) :
    ∀ (l : List Dict) (tc : List (Value × Nat)) (n : Nat),
      getCnt (l.foldl statStep (tc, n)).1 t
        = getCnt tc t + l.countP (fun m => decide (itemType m = t))
  | [], _, _ => by simp
  | m :: l, tc, n => by
      simp only [List.foldl_cons, statStep, List.countP_cons]
      rw [countStats_foldl_getCnt t l, getCnt_bump]
      by_cases h : itemType m = t
      · rw [if_pos h.symm, if_pos (by simp [h])]
        omega
      · rw [if_neg (fun he => h he.symm), if_neg (by simp [h])]
        omega

/-! Facts about the placeholder audit. -/

theorem length_filterMap_ite {α β : Type} (p : α → Bool) (f : α → β) :
    ∀ l : List α, (l.filterMap (fun v => if p v then some (f v) else none)).length = l.countP p
  | [] => rfl
  | a :: l => by
      cases h : p a <;>
        simp [List.filterMap_cons, h, List.countP_cons, length_filterMap_ite p f l]

theorem sha256Placeholder_vstr (s : String) : sha256Placeholder (.vstr s) = false := rfl

/-- The audit result size the specification describes (section 4.2): one
IntegrityWarning per variant whose sha256 carries the placeholder sentinel,
plus one warning when the file record is present, truthy and carries the
sentinel. -/
def specPlaceholderWarningCount (m : Dict) : Nat :=
  (match dget? m "variants" with
   | some (.vlist vs) => vs.countP sha256Placeholder
   | _ => 0)
  + (match dget? m "file" with
     | some f => if pyTruthy f && sha256Placeholder f then 1 else 0
     | none => 0)

/-- The audit emits exactly the warning count the specification describes:
one per placeholder variant hash plus one for a placeholder file hash. -/
theorem check_placeholder_hashes_length (m : Dict) :
    (check_placeholder_hashes m).length = specPlaceholderWarningCount m := by
  unfold check_placeholder_hashes specPlaceholderWarningCount
  rw [List.length_append]
  congr 1
  · unfold hasKey dIndex
    cases hv : dget? m "variants" with
    | none => simp
    | some v =>
      simp only [Option.isSome_some, if_true, Option.getD_some]
      cases v with
      | vlist vs => exact length_filterMap_ite _ _ vs
      | vstr s =>
          simp only [pyIter]
          rw [length_filterMap_ite sha256Placeholder variantWarning]
          rw [List.countP_map]
          simp [Function.comp_def, sha256Placeholder_vstr, List.countP_eq_zero]
      | vdict kvs =>
          simp only [pyIter]
          rw [length_filterMap_ite sha256Placeholder variantWarning]
          rw [List.countP_map]
          simp [Function.comp_def, sha256Placeholder_vstr, List.countP_eq_zero]
      | vnull => simp [pyIter]
      | vbool b => simp [pyIter]
      | vint n => simp [pyIter]
      | vfloat q => simp [pyIter]
  · unfold hasKey dIndex
    cases hf : dget? m "file" with
    | none => simp
    | some f =>
      simp only [Option.isSome_some, Bool.true_and, Option.getD_some]
      cases ht : pyTruthy f with
      | false => simp [ht]
      | true =>
        simp only [if_true]
        cases hp : sha256Placeholder f <;> simp [hp]

/-! Idempotence of the literal normalizer. -/

theorem coerceStr_vstr {s t : String} (h : coerceStr s = .vstr t) : t = s := by
  unfold coerceStr at h
  split at h
  · cases hp : pyFloat? s with
    | none => rw [hp] at h; exact (Value.vstr.inj h).symm
    | some q => rw [hp] at h; cases h
  · exact (Value.vstr.inj h).symm

theorem coerceStr_idem {s t : String} (h : coerceStr s = .vstr t) : coerceStr t = .vstr t := by
  have he := coerceStr_vstr h
  subst he
  exact h

theorem coerceStr_shape (s : String) :
    (∃ t, coerceStr s = .vstr t) ∨ ∃ q, coerceStr s = .vfloat q := by
  unfold coerceStr
  split
  · cases hp : pyFloat? s with
    | none => exact Or.inl ⟨s, rfl⟩
    | some q => exact Or.inr ⟨q, rfl⟩
  · exact Or.inl ⟨s, rfl⟩

mutual

theorem coerceFloats_idem : ∀ v : Value, coerceFloats (coerceFloats v) = coerceFloats v
  | .vnull => rfl
  | .vbool _ => rfl
  | .vint _ => rfl
  | .vfloat _ => rfl
  | .vstr _ => rfl
  | .vlist xs => by
      simp only [coerceFloats]
      rw [coerceList_idem xs]
  | .vdict kvs => by
      simp only [coerceFloats]
      rw [coerceDict_idem kvs]

theorem coerceDict_idem : ∀ l : List (String × Value), coerceDict (coerceDict l) = coerceDict l
  | [] => rfl
  | (k, .vstr s) :: rest => by
      simp only [coerceDict]
      cases hc : coerceStr s with
      | vstr t =>
          simp only [coerceDict]
          rw [coerceStr_idem hc, coerceDict_idem rest]
      | vfloat q =>
          simp only [coerceDict, coerceFloats]
          rw [coerceDict_idem rest]
      | vnull =>
          simp only [coerceDict, coerceFloats]
          rw [coerceDict_idem rest]
      | vbool b =>
          simp only [coerceDict, coerceFloats]
          rw [coerceDict_idem rest]
      | vint n =>
          simp only [coerceDict, coerceFloats]
          rw [coerceDict_idem rest]
      | vlist xs =>
          rcases coerceStr_shape s with ⟨t, h⟩ | ⟨q, h⟩ <;> rw [h] at hc <;> cases hc
      | vdict kvs =>
          rcases coerceStr_shape s with ⟨t, h⟩ | ⟨q, h⟩ <;> rw [h] at hc <;> cases hc
  | (k, .vnull) :: rest => by
      simp only [coerceDict, coerceFloats]
      rw [coerceDict_idem rest]
  | (k, .vbool b) :: rest => by
      simp only [coerceDict, coerceFloats]
      rw [coerceDict_idem rest]
  | (k, .vint n) :: rest => by
      simp only [coerceDict, coerceFloats]
      rw [coerceDict_idem rest]
  | (k, .vfloat q) :: rest => by
      simp only [coerceDict, coerceFloats]
      rw [coerceDict_idem rest]
  | (k, .vlist xs) :: rest => by
      simp only [coerceDict, coerceFloats]
      rw [coerceList_idem xs, coerceDict_idem rest]
  | (k, .vdict kvs) :: rest => by
      simp only [coerceDict, coerceFloats]
      rw [coerceDict_idem kvs, coerceDict_idem rest]

theorem coerceList_idem : ∀ l : List Value, coerceList (coerceList l) = coerceList l
  | [] => rfl
  | .vstr s :: rest => by
      simp only [coerceList]
      cases hc : coerceStr s with
      | vstr t =>
          simp only [coerceList]
          rw [coerceStr_idem hc, coerceList_idem rest]
      | vfloat q =>
          simp only [coerceList, coerceFloats]
          rw [coerceList_idem rest]
      | vnull =>
          simp only [coerceList, coerceFloats]
          rw [coerceList_idem rest]
      | vbool b =>
          simp only [coerceList, coerceFloats]
          rw [coerceList_idem rest]
      | vint n =>
          simp only [coerceList, coerceFloats]
          rw [coerceList_idem rest]
      | vlist xs =>
          rcases coerceStr_shape s with ⟨t, h⟩ | ⟨q, h⟩ <;> rw [h] at hc <;> cases hc
      | vdict kvs =>
          rcases coerceStr_shape s with ⟨t, h⟩ | ⟨q, h⟩ <;> rw [h] at hc <;> cases hc
  | .vnull :: rest => by
      simp only [coerceList, coerceFloats]
      rw [coerceList_idem rest]
  | .vbool b :: rest => by
      simp only [coerceList, coerceFloats]
      rw [coerceList_idem rest]
  | .vint n :: rest => by
      simp only [coerceList, coerceFloats]
      rw [coerceList_idem rest]
  | .vfloat q :: rest => by
      simp only [coerceList, coerceFloats]
      rw [coerceList_idem rest]
  | .vlist xs :: rest => by
      simp only [coerceList, coerceFloats]
      rw [coerceList_idem xs, coerceList_idem rest]
  | .vdict kvs :: rest => by
      simp only [coerceList, coerceFloats]
      rw [coerceDict_idem kvs, coerceList_idem rest]

end

/-! Concrete corpora used by witnesses and counterexamples. -/

/-- A valid lora manifest with a truthy cloud_available flag. -/
def mAId : Dict :=
  [("id", .vstr "aaa"), ("name", .vstr "AAA"), ("type", .vstr "lora"),
   ("file", .vdict [("url", .vstr "u1"), ("sha256", .vstr "h1"), ("size", .vint 1)]),
   ("cloud_available", .vbool true)]

/-- A valid lora manifest without cloud_available. -/
def mBId : Dict :=
  [("id", .vstr "bbb"), ("name", .vstr "BBB"), ("type", .vstr "lora"),
   ("file", .vdict [("url", .vstr "u2"), ("sha256", .vstr "h2"), ("size", .vint 2)])]

/-- A two-file corpus whose files are enumerated in reverse id order, so the
output sort is exercised. -/
def wCorpus : List MDir := [⟨"loras", [⟨"bbb", .pdoc mBId⟩, ⟨"aaa", .pdoc mAId⟩]⟩]

/-- The index a successful run over wCorpus writes. -/
def wIdx : Index :=
  { version := 2, generated_at := "2026-01-01T00:00:00Z", total_count := 2,
    type_counts := [(.vstr "lora", 1 + 1)], cloud_available_count := 1,
    schema_url := SCHEMA_URL, items := [mAId, mBId] }

/-- A valid checkpoint manifest with filename stem foo. -/
def mFooCk : Dict :=
  [("id", .vstr "foo"), ("name", .vstr "Foo CK"), ("type", .vstr "checkpoint"),
   ("file", .vdict [("url", .vstr "u3"), ("sha256", .vstr "h3"), ("size", .vint 1)])]

/-- A valid lora manifest that also has filename stem foo. -/
def mFooLo : Dict :=
  [("id", .vstr "foo"), ("name", .vstr "Foo LoRA"), ("type", .vstr "lora"),
   ("file", .vdict [("url", .vstr "u4"), ("sha256", .vstr "h4"), ("size", .vint 2)])]

/-- Two recognized groupings each holding a manifest with the same filename
stem: both are valid in their own grouping. -/
def dupCorpus : List MDir :=
  [⟨"checkpoints", [⟨"foo", .pdoc mFooCk⟩]⟩, ⟨"loras", [⟨"foo", .pdoc mFooLo⟩]⟩]

/-- The index a successful run over dupCorpus writes: both foo items appear. -/
def dupIdx : Index :=
  { version := 2, generated_at := "2026-01-01T00:00:00Z", total_count := 2,
    type_counts := [(.vstr "checkpoint", 1), (.vstr "lora", 1)],
    cloud_available_count := 0, schema_url := SCHEMA_URL, items := [mFooCk, mFooLo] }

/-- A corpus whose only file fails YAML parsing. -/
def errCorpus : List MDir := [⟨"loras", [⟨"bad", .perr⟩]⟩]

/-! Claim theorems. -/

/-- Claim C1, counterexample: a corpus holding two valid manifests with the
same filename stem under two different recognized groupings succeeds, and the
emitted items contain two entries with equal id, so the id sequence is not
strictly increasing as the claim states. -/
theorem C1_counterexample :
    build_index false dupCorpus "2026-01-01T00:00:00Z" = some dupIdx ∧
    ¬ dupIdx.items.Pairwise (fun a b => idKey a ≠ idKey b) :=
  ⟨by decide, by decide⟩

/-- Claim C1, amended: on every successful run the emitted items are the
accepted manifests sorted by id and then normalized; the sorted list is
non-decreasing by the id sort key, but ids need not be strictly increasing,
because the same stem under two recognized groupings yields two accepted
manifests with equal id. -/
theorem C1_items_sorted_amended (strict : Bool) (corpus : List MDir) (now : String) (idx : Index)
    (h : build_index strict corpus now = some idx) :
    idx.items = (sortById (runAcc strict corpus).items).map (fun m => coerceDict m) ∧
    IdSortedLe (sortById (runAcc strict corpus).items) :=
  ⟨(build_index_some_elim h).2.1, sortById_sorted _⟩

/-- Claim C1, witness: the amended theorem applied to a concrete two-manifest
corpus that the run accepts. -/
theorem C1_witness :
    wIdx.items = (sortById (runAcc false wCorpus).items).map (fun m => coerceDict m) ∧
    IdSortedLe (sortById (runAcc false wCorpus).items) :=
  C1_items_sorted_amended false wCorpus "2026-01-01T00:00:00Z" wIdx (by decide)

/-- Claim C2: all-or-nothing publication.  If any file of any recognized
grouping produces a fatal outcome (parse failure, empty document, validation
errors, type-grouping mismatch, or a strict-mode placeholder rejection — the
cases of processFile returning fatal), the run returns failure and no index
document is produced. -/
theorem C2_all_or_nothing (strict : Bool) (corpus : List MDir) (now : String)
    (h : ∃ d ∈ corpus, ∃ e, dirExpected d = some e ∧
          ∃ f ∈ d.files, processFile strict e f = .fatal) :
    build_index strict corpus now = none := by
  obtain ⟨d, hd, e, he, f, hf, hfatal⟩ := h
  have herr := foldl_processDir_fatal strict corpus ⟨[], false, false⟩ d hd e he f hf hfatal
  simp only [build_index, runAcc]
  rw [herr]
  simp

/-- Claim C2, witness: a corpus whose only document fails to parse yields no
index. -/
theorem C2_witness : build_index false errCorpus "2026-01-01T00:00:00Z" = none :=
  C2_all_or_nothing false errCorpus "2026-01-01T00:00:00Z"
    ⟨⟨"loras", [⟨"bad", .perr⟩]⟩, by decide, "lora", by decide, ⟨"bad", .perr⟩, by decide, by decide⟩

/-- Every audit warning is the variant warning of one of the placeholder
variants (naming that variant id) or the file warning. -/
theorem check_placeholder_hashes_naming (m : Dict) :
    ∀ w ∈ check_placeholder_hashes m,
      (∃ v ∈ pyIter (dIndex m "variants"), sha256Placeholder v = true ∧ w = variantWarning v) ∨
      (sha256Placeholder (dIndex m "file") = true ∧
        w = "File has placeholder hash: " ++ pyStr (pyIndex (dIndex m "file") "sha256")) := by
  intro w hw
  unfold check_placeholder_hashes at hw
  rcases List.mem_append.mp hw with hw | hw
  · split at hw
    · rcases List.mem_filterMap.mp hw with ⟨v, hv, hvw⟩
      split at hvw
      · rename_i hph
        left
        exact ⟨v, hv, hph, (Option.some.inj hvw).symm⟩
      · cases hvw
    · cases hw
  · split at hw
    · split at hw
      · rename_i hph
        right
        exact ⟨hph, List.mem_singleton.mp hw⟩
      · cases hw
    · cases hw

/-- A checkpoint manifest with a placeholder file hash, otherwise valid. -/
def mPh : Dict :=
  [("id", .vstr "x"), ("name", .vstr "X"), ("type", .vstr "checkpoint"),
   ("file", .vdict [("url", .vstr "https://x/y.safetensors"),
                    ("sha256", .vstr "VERIFY_abc"), ("size", .vint 100)])]

/-- A schema-valid lora manifest with a placeholder file hash; its type does
not match the checkpoints grouping. -/
def mC3bad : Dict :=
  [("id", .vstr "x"), ("name", .vstr "X"), ("type", .vstr "lora"),
   ("file", .vdict [("url", .vstr "https://x/y.safetensors"),
                    ("sha256", .vstr "VERIFY_abc"), ("size", .vint 100)])]

/-- Claim C3, counterexample: a manifest that passes Schema Rules and whose
file hash is a placeholder but whose type differs from the grouping expected
type is rejected even in default mode (the type-directory check of line 232
runs before the audit), so passing Schema Rules plus a placeholder does not
suffice for acceptance into items as the claim states. -/
theorem C3_counterexample :
    validate_manifest mC3bad "x" = [] ∧
    check_placeholder_hashes mC3bad ≠ [] ∧
    processFile false "checkpoint" ⟨"x", .pdoc mC3bad⟩ = .fatal ∧
    build_index false [⟨"checkpoints", [⟨"x", .pdoc mC3bad⟩]⟩] "2026-01-01T00:00:00Z" = none :=
  ⟨by decide, by decide, by decide, by decide⟩

/-- Claim C3, amended: for every manifest that passes Schema Rules, whose
type matches its grouping expected type, and whose audit result is
non-empty: in default mode it is accepted into the items with the warning
flag set, the audit emitting one warning per placeholder (each the variant
warning naming the variant id, or the file warning); in strict mode the
non-empty audit result is a fatal rejection. -/
theorem C3_placeholder_policy_amended (m : Dict) (stem expected : String)
    (hv : validate_manifest m stem = [])
    (ht : valueEqStr (dIndex m "type") expected = true)
    (hw : check_placeholder_hashes m ≠ []) :
    processFile false expected ⟨stem, .pdoc m⟩ = .accept m true ∧
    processFile true expected ⟨stem, .pdoc m⟩ = .fatal ∧
    (check_placeholder_hashes m).length = specPlaceholderWarningCount m ∧
    (∀ w ∈ check_placeholder_hashes m,
      (∃ v ∈ pyIter (dIndex m "variants"), sha256Placeholder v = true ∧ w = variantWarning v) ∨
      (sha256Placeholder (dIndex m "file") = true ∧
        w = "File has placeholder hash: " ++ pyStr (pyIndex (dIndex m "file") "sha256"))) := by
  have hws : (check_placeholder_hashes m).isEmpty = false := by
    cases hcw : check_placeholder_hashes m with
    | nil => exact absurd hcw hw
    | cons a l => rfl
  refine ⟨?_, ?_, check_placeholder_hashes_length m, check_placeholder_hashes_naming m⟩
  · simp [processFile, hv, ht, hws]
  · simp [processFile, hv, ht, hws]

/-- Claim C3, witness: the amended theorem applied to a concrete checkpoint
manifest with a placeholder file hash under the checkpoints grouping. -/
theorem C3_witness :
    processFile false "checkpoint" ⟨"x", .pdoc mPh⟩ = .accept mPh true ∧
    processFile true "checkpoint" ⟨"x", .pdoc mPh⟩ = .fatal ∧
    (check_placeholder_hashes mPh).length = specPlaceholderWarningCount mPh ∧
    (∀ w ∈ check_placeholder_hashes mPh,
      (∃ v ∈ pyIter (dIndex mPh "variants"), sha256Placeholder v = true ∧ w = variantWarning v) ∨
      (sha256Placeholder (dIndex mPh "file") = true ∧
        w = "File has placeholder hash: " ++ pyStr (pyIndex (dIndex mPh "file") "sha256"))) :=
  C3_placeholder_policy_amended mPh "x" "checkpoint" (by decide) (by decide) (by decide)

/-- A manifest missing both id and type. -/
def mMissing : Dict := [("name", .vstr "N")]

/-- Claim C4: when any of id, name, type is absent, validate returns exactly
one missing-field error per absent field, in source order, and nothing else:
no deeper structural check contributes an error. -/
theorem C4_missing_required_only (m : Dict) (stem : String)
    (h : hasKey m "id" = false ∨ hasKey m "name" = false ∨ hasKey m "type" = false) :
    validate_manifest m stem =
      (["id", "name", "type"].filter (fun f => !hasKey m f)).map
        (fun f => "Missing required field: " ++ f) := by
  have hmem : ∃ f, f ∈ ["id", "name", "type"] ∧ (!hasKey m f) = true := by
    rcases h with h | h | h
    · exact ⟨"id", by simp, by simp [h]⟩
    · exact ⟨"name", by simp, by simp [h]⟩
    · exact ⟨"type", by simp, by simp [h]⟩
  obtain ⟨f, hf, hfk⟩ := hmem
  have hmm : ("Missing required field: " ++ f) ∈ requiredFieldErrors m :=
    List.mem_map_of_mem _ (List.mem_filter.mpr ⟨hf, hfk⟩)
  have hne : (requiredFieldErrors m).isEmpty = false := by
    cases hcw : requiredFieldErrors m with
    | nil => rw [hcw] at hmm; cases hmm
    | cons a l => rfl
  simp only [validate_manifest, hne, Bool.false_eq_true, if_false]
  rfl

/-- Claim C4, witness: a manifest holding only a name field gets exactly the
two missing-field errors for id and type. -/
theorem C4_witness :
    (hasKey mMissing "id" = false ∨ hasKey mMissing "name" = false ∨
      hasKey mMissing "type" = false) ∧
    validate_manifest mMissing "alora" =
      ["Missing required field: id", "Missing required field: type"] :=
  ⟨Or.inl (by decide),
    (C4_missing_required_only mMissing "alora" (Or.inl (by decide))).trans (by decide)⟩

/-- Claim C5: on every successful run, the type_counts values sum to
total_count, total_count is the item count, and every type value observed
among the emitted items appears as a key of type_counts bound to the number
of items of that type. -/
theorem C5_type_counts_consistent (strict : Bool) (corpus : List MDir) (now : String) (idx : Index)
    (h : build_index strict corpus now = some idx) :
    sumVals idx.type_counts = idx.total_count ∧
    idx.total_count = idx.items.length ∧
    ∀ m ∈ idx.items,
      (itemType m, idx.items.countP (fun m2 => decide (itemType m2 = itemType m)))
        ∈ idx.type_counts := by
  obtain ⟨-, -, htot, htc, -, -, -, -⟩ := build_index_some_elim h
  refine ⟨?_, htot, ?_⟩
  · rw [htc, htot]
    have := countStats_foldl_sum idx.items [] 0
    simpa [countStats, sumVals] using this
  · intro m hm
    have hcnt := countStats_foldl_getCnt (itemType m) idx.items [] 0
    have hzero : getCnt [] (itemType m) = 0 := rfl
    rw [hzero, Nat.zero_add] at hcnt
    have heq : getCnt (countStats idx.items).1 (itemType m)
        = idx.items.countP (fun m2 => decide (itemType m2 = itemType m)) := hcnt
    have hpos : 0 < idx.items.countP (fun m2 => decide (itemType m2 = itemType m)) :=
      List.countP_pos_iff.mpr ⟨m, hm, by simp⟩
    rw [htc, ← heq]
    exact getCnt_mem (by rw [heq]; exact hpos)

/-- Claim C5, witness: applied to the two-grouping corpus, whose index counts
one checkpoint and one lora. -/
theorem C5_witness :
    sumVals dupIdx.type_counts = dupIdx.total_count ∧
    dupIdx.total_count = dupIdx.items.length ∧
    ∀ m ∈ dupIdx.items,
      (itemType m, dupIdx.items.countP (fun m2 => decide (itemType m2 = itemType m)))
        ∈ dupIdx.type_counts :=
  C5_type_counts_consistent false dupCorpus "2026-01-01T00:00:00Z" dupIdx (by decide)

/-- Claim C6: on every successful run, cloud_available_count equals the
number of emitted items whose cloud_available value is truthy. -/
theorem C6_cloud_available_count (strict : Bool) (corpus : List MDir) (now : String) (idx : Index)
    (h : build_index strict corpus now = some idx) :
    idx.cloud_available_count = idx.items.countP cloudTruthy := by
  obtain ⟨-, -, -, -, hcl, -, -, -⟩ := build_index_some_elim h
  rw [hcl]
  have := countStats_foldl_snd idx.items [] 0
  simpa [countStats] using this

/-- Claim C6, witness: applied to the two-item corpus with one truthy
cloud_available flag. -/
theorem C6_witness : wIdx.cloud_available_count = wIdx.items.countP cloudTruthy :=
  C6_cloud_available_count false wCorpus "2026-01-01T00:00:00Z" wIdx (by decide)

/-- Claim C7: the literal normalizer is idempotent: applying the recursive
float coercion twice gives the same result as applying it once, on every
value (nested mappings, sequences and scalars). -/
theorem C7_normalizer_idempotent (v : Value) :
    coerceFloats (coerceFloats v) = coerceFloats v :=
  coerceFloats_idem v

/-- A recipe manifest with consistent id, name and type, no category, a
recipe section lacking base_model, and neither file nor variants. -/
def mC8ok : Dict :=
  [("id", .vstr "r"), ("name", .vstr "R"), ("type", .vstr "recipe"),
   ("recipe", .vdict [("steps", .vlist [])])]

/-- Like mC8ok but carrying an invalid category value. -/
def mC8bad : Dict :=
  [("id", .vstr "r"), ("name", .vstr "R"), ("type", .vstr "recipe"),
   ("category", .vstr "bogus"), ("recipe", .vdict [("steps", .vlist [])])]

/-- Claim C8, counterexample: a manifest satisfying every hypothesis the
claim lists (id, name, type present and consistent; recipe section present
without base_model; no file or variants) but holding an invalid category
gets two errors, not exactly one. -/
theorem C8_counterexample :
    validate_manifest mC8bad "r" =
      ["Invalid category \x27bogus\x27. Must be one of: " ++ validCategoriesText,
       "Recipe \x27recipe\x27 section must have \x27base_model\x27"] ∧
    (validate_manifest mC8bad "r").length ≠ 1 :=
  ⟨by decide, by decide⟩

/-- Claim C8, amended: for a recipe manifest with id, name, type present and
consistent, category absent or valid, a recipe mapping present but lacking
base_model, and neither file nor variants: validate returns exactly the one
error naming the missing base_model; in particular no content-shape error is
raised despite the absence of file and variants. -/
theorem C8_recipe_base_model_amended (m : Dict) (stem : String)
    (hid : dget? m "id" = some (.vstr stem))
    (hname : hasKey m "name" = true)
    (htype : dget? m "type" = some (.vstr "recipe"))
    (hcat : dget? m "category" = none ∨
      ∃ c, dget? m "category" = some (.vstr c) ∧ c ∈ VALID_CATEGORIES)
    (hrec : ∃ kvs : Dict, dget? m "recipe" = some (.vdict kvs) ∧ hasKey kvs "base_model" = false)
    (hnofile : hasKey m "file" = false)
    (hnovar : hasKey m "variants" = false) :
    validate_manifest m stem = ["Recipe \x27recipe\x27 section must have \x27base_model\x27"] := by
  obtain ⟨kvs, hrk, hrb⟩ := hrec
  have hkid : hasKey m "id" = true := by simp [hasKey, hid]
  have hktype : hasKey m "type" = true := by simp [hasKey, htype]
  have hkrec : hasKey m "recipe" = true := by simp [hasKey, hrk]
  have hreq : requiredFieldErrors m = [] := by
    simp [requiredFieldErrors, hkid, hname, hktype]
  have hie : (requiredFieldErrors m).isEmpty = true := by rw [hreq]; rfl
  have hIdx : dIndex m "id" = .vstr stem := by simp [dIndex, hid]
  have hTdx : dIndex m "type" = .vstr "recipe" := by simp [dIndex, htype]
  have hiderr : idError m stem = [] := by
    simp [idError, hIdx, valueEqStr]
  have hvt : inValidTypes (Value.vstr "recipe") = true := by decide
  have htyerr : typeError m = [] := by
    simp [typeError, hTdx, hvt]
  have hcaterr : categoryError m = [] := by
    rcases hcat with hc | ⟨c, hc, hcv⟩
    · simp [categoryError, hasKey, hc]
    · have hin : inValidCategories (dIndex m "category") = true := by
        simp only [dIndex, hc, Option.getD_some, inValidCategories]
        exact List.elem_iff.mpr hcv
      simp [categoryError, hin]
  have hrecipe : isRecipeB m = true := by simp [isRecipeB, hTdx, valueEqStr]
  have hshape : shapeErrors m = ["Recipe \x27recipe\x27 section must have \x27base_model\x27"] := by
    simp [shapeErrors, hrecipe, hkrec, dgetD, hrk, pyContains, hrb]
  have hvar : variantErrors m = [] := by
    simp [variantErrors, hasVariantsB, hnovar]
  have hfile : fileErrors m = [] := by
    simp [fileErrors, hasFileB, hnofile]
  simp only [validate_manifest, hie, if_true]
  rw [hiderr, htyerr, hcaterr, hshape, hvar, hfile]
  rfl

/-- Claim C8, witness: the amended theorem applied to a concrete recipe
manifest lacking base_model. -/
theorem C8_witness :
    validate_manifest mC8ok "r" = ["Recipe \x27recipe\x27 section must have \x27base_model\x27"] :=
  C8_recipe_base_model_amended mC8ok "r" (by decide) (by decide) (by decide)
    (Or.inl (by decide)) ⟨[("steps", .vlist [])], by decide, by decide⟩ (by decide) (by decide)

/-- A valid checkpoint manifest whose id string "10e9" parses as a float. -/
def mTen : Dict :=
  [("id", .vstr "10e9"), ("name", .vstr "Ten"), ("type", .vstr "checkpoint"),
   ("file", .vdict [("url", .vstr "https://h/t.st"), ("sha256", .vstr "ccc"),
                    ("size", .vint 3)])]

/-- A valid checkpoint manifest whose id, name, url and sha256 strings all
parse as floats. -/
def mTwo : Dict :=
  [("id", .vstr "2e5"), ("name", .vstr "5e1"), ("type", .vstr "checkpoint"),
   ("file", .vdict [("url", .vstr "1e3"), ("sha256", .vstr "3e4"), ("size", .vint 4)])]

def corpus9 : List MDir :=
  [⟨"checkpoints", [⟨"10e9", .pdoc mTen⟩, ⟨"2e5", .pdoc mTwo⟩]⟩]

/-- The index a successful run over corpus9 writes: every float-parsable
string field has been replaced by its numeric value, after the sort used the
original string ids. -/
def idx9 : Index :=
  { version := 2, generated_at := "2026-01-01T00:00:00Z", total_count := 2,
    type_counts := [(.vstr "checkpoint", 2)], cloud_available_count := 0,
    schema_url := SCHEMA_URL,
    items :=
      [[("id", .vfloat ⟨10000000000, 1⟩), ("name", .vstr "Ten"),
        ("type", .vstr "checkpoint"),
        ("file", .vdict [("url", .vstr "https://h/t.st"), ("sha256", .vstr "ccc"),
                         ("size", .vint 3)])],
       [("id", .vfloat ⟨200000, 1⟩), ("name", .vfloat ⟨50, 1⟩),
        ("type", .vstr "checkpoint"),
        ("file", .vdict [("url", .vfloat ⟨1000, 1⟩), ("sha256", .vfloat ⟨30000, 1⟩),
                         ("size", .vint 4)])]] }

/-- Claim C9: the normalizer excludes no field from coercion.  A manifest
whose id is the string "2e5" is accepted and emitted with the number 200000
as its id; name, url and sha256 strings that parse as floats are replaced
too; and the emitted order is the string order of the ids ("10e9" sorts
before "2e5" as a string although 10e9 is the larger number), showing
coercion runs after the sort. -/
theorem C9_coercion_spares_no_field :
    build_index false corpus9 "2026-01-01T00:00:00Z" = some idx9 ∧
    idx9.items.map (fun m => dget? m "id")
      = [some (.vfloat ⟨10000000000, 1⟩), some (.vfloat ⟨200000, 1⟩)] ∧
    idx9.items.map (fun m => dget? m "name")
      = [some (.vstr "Ten"), some (.vfloat ⟨50, 1⟩)] ∧
    idx9.items.map (fun m => pyIndex (dIndex m "file") "url")
      = [.vstr "https://h/t.st", .vfloat ⟨1000, 1⟩] ∧
    idx9.items.map (fun m => pyIndex (dIndex m "file") "sha256")
      = [.vstr "ccc", .vfloat ⟨30000, 1⟩] ∧
    strLt "10e9" "2e5" = true :=
  ⟨by decide, by decide, by decide, by decide, by decide, by decide⟩

/-- A checkpoint manifest with a file record whose size is the given value. -/
def mFileSize (v : Value) : Dict :=
  [("id", .vstr "m"), ("name", .vstr "M"), ("type", .vstr "checkpoint"),
   ("file", .vdict [("url", .vstr "u"), ("sha256", .vstr "abc"), ("size", v)])]

/-- A checkpoint manifest with one variant whose size is the given value. -/
def mVariantSize (v : Value) : Dict :=
  [("id", .vstr "m"), ("name", .vstr "M"), ("type", .vstr "checkpoint"),
   ("variants", .vlist [.vdict [("id", .vstr "v"), ("file", .vstr "f"),
     ("url", .vstr "u"), ("sha256", .vstr "abc"), ("size", v)]])]

/-- Claim C10: a boolean size passes the integer-size check, because the
embedding of isinstance treats bool as a subclass of int exactly as Python
does, so neither the file nor the variant form produces a size error for a
bool, while a string or float size is rejected. -/
theorem C10_bool_size_passes : ∀ b : Bool,
    validate_manifest (mFileSize (.vbool b)) "m" = [] ∧
    validate_manifest (mVariantSize (.vbool b)) "m" = [] ∧
    validate_manifest (mFileSize (.vstr "1000")) "m"
      = ["File \x27size\x27 must be an integer (bytes)"] ∧
    validate_manifest (mFileSize (.vfloat ⟨1000, 1⟩)) "m"
      = ["File \x27size\x27 must be an integer (bytes)"] ∧
    validate_manifest (mVariantSize (.vstr "1000")) "m"
      = ["Variant 0 \x27size\x27 must be an integer (bytes)"] := by
  intro b
  cases b <;> exact ⟨by decide, by decide, by decide, by decide, by decide⟩
